import Mathlib

/-!
A shallow embedding of `ncompare/core.py`, the comparison engine of the
`ncompare` repository, together with proofs about its random value sampler,
its comparison orchestrator, its variable-listing paths and its colour
handling.

Numeric scalar values are modelled as rationals (`ℚ`), with an explicit `nan`
constructor for the not-a-number case; randomness is externalised as an
entropy-source argument; printing is modelled as returned event traces and
marker lists; an uncaught exception is modelled as an `Option` failure or an
`aborted` flag.
-/

namespace Ncompare

/-- A scalar value read from a NetCDF variable: either not-a-number, or a
numeric value (modelled as a rational). -/
inductive Val where
  | nan : Val
  | num (q : ℚ) : Val
deriving DecidableEq, Repr

/-- The test performed by the code's `np.isnan` on a sampled scalar. -/
def Val.isnan : Val → Bool
  | .nan => true
  | .num _ => false

/-- Numeric content of a value; meaningful only when the value is not NaN. -/
def Val.toQ : Val → ℚ
  | .nan => 0
  | .num q => q

/-- The outcome of one random-sample comparison (the spec's `SampleOutcome`):
`Match` is the code's `True` return, `BothMissing` its `None` return, and
`Mismatch diff` its `False` return, which carries the printed difference. -/
inductive SampleOutcome where
  | Match : SampleOutcome
  | BothMissing : SampleOutcome
  | Mismatch (diff : ℚ) : SampleOutcome
deriving DecidableEq, Repr

/-- The default `thresh` parameter of `_match_random_value`
(core.py line 240): `1e-6`. -/
def defaultThresh : ℚ := 1 / 1000000

/-- Python's `abs` on a rational. -/
def qabs (q : ℚ) : ℚ :=
  if q < 0 then -q else q

/-- The value-evaluation step of `_match_random_value` (core.py lines
252-266): if either value is NaN, return `None`; otherwise compute
`diff = v2 - v1` and return `False` when `abs(diff) > thresh`, else `True`. -/
def matchValues (v1 v2 : Val) (thresh : ℚ) : SampleOutcome :=
  if v1.isnan || v2.isnan then
    SampleOutcome.BothMissing
  else
    let diff := v2.toQ - v1.toQ
    if qabs diff > thresh then SampleOutcome.Mismatch diff else SampleOutcome.Match

/-- A NetCDF variable as the sampler sees it: a shape, and the scalar value
stored at each multi-dimensional index.  The read-cost model of accessing it
through xarray's `.values` — which materializes the variable's entire backing
array — is accounted in `sampleStep`. -/
structure Variable where
  shape : List ℕ
  data : List ℤ → Val

/-- The total number of scalar elements of a variable: the product of its
shape extents.  This is how many elements xarray's `.values` materializes. -/
def numElements (v : Variable) : ℕ :=
  v.shape.prod

/-- Python's `random.randint(lo, hi)`, both endpoints inclusive: raises
`ValueError` (here `none`) when the range `[lo, hi]` is empty; otherwise
returns a value of `[lo, hi]`, here derived from an arbitrary entropy value
`r`. -/
def randint (lo hi : ℤ) (r : ℕ) : Option ℤ :=
  if lo ≤ hi then some (lo + (r : ℤ) % (hi - lo + 1)) else none

/-- The random-index loop of `_match_random_value` (core.py lines 242-246):
one `randint(0, d - 1)` per dimension `d` of `nc_var_a.shape`.  The entropy
source `r` supplies one value per dimension position, starting at `i`. -/
def randIndexAux (r : ℕ → ℕ) : ℕ → List ℕ → Option (List ℤ)
  | _, [] => some []
  | i, d :: ds =>
    match randint 0 ((d : ℤ) - 1) (r i) with
    | none => none
    | some x =>
      match randIndexAux r (i + 1) ds with
      | none => none
      | some xs => some (x :: xs)

/-- The complete random index (`rand_index` in the source), or `none` when
some extent is `0` and `randint` fails. -/
def randIndex (r : ℕ → ℕ) (shape : List ℕ) : Option (List ℤ) :=
  randIndexAux r 0 shape

/-- One call of `_match_random_value(nc_var_a, nc_var_b, thresh)` (core.py
lines 238-266): draw a random index over `var_a`'s shape, read the scalar at
that index from each variable (lines 249-250), and evaluate.  The `none`
result models the uncaught `ValueError` raised by `randint` on an empty
extent; in that case no value is read from either variable. -/
def matchRandomValue (a b : Variable) (r : ℕ → ℕ) (thresh : ℚ) : Option SampleOutcome :=
  match randIndex r a.shape with
  | none => none
  | some idx => some (matchValues (a.data idx) (b.data idx) thresh)

/-- The per-draw progress marker printed by `compare_multiple_random_values`
(core.py lines 132-137): `.` for `True`, `n` for `None`, `x` for `False`. -/
def markerOf : SampleOutcome → Char
  | .Match => '.'
  | .BothMissing => 'n'
  | .Mismatch _ => 'x'

/-- The increment applied to `num_mismatches` by one loop iteration
(core.py line 138): `1` exactly for a mismatch. -/
def mismatchInc : SampleOutcome → ℕ
  | .Mismatch _ => 1
  | _ => 0

/-- Recogniser for the mismatch outcome kind. -/
def SampleOutcome.isMismatch : SampleOutcome → Bool
  | .Mismatch _ => true
  | _ => false

/-- The observable state accumulated by the sampling loop of
`compare_multiple_random_values`.  The only aggregate the loop itself carries
is `numMismatches` (the source's `num_mismatches`); `markers` records the
printed per-draw progress characters, `readsA` and `readsB` count the scalar
elements read so far from each variable (each successful draw evaluates
`nc_var_a.values[rand_index]` and `nc_var_b.values[rand_index]`, and `.values`
materializes the variable's entire array before the index is applied), and
`aborted` records an uncaught exception, which ends the loop. -/
structure RunState where
  numMismatches : ℕ
  markers : List Char
  readsA : ℕ
  readsB : ℕ
  aborted : Bool
deriving DecidableEq, Repr

/-- Loop state before the first iteration (core.py line 129). -/
def initRunState : RunState := ⟨0, [], 0, 0, false⟩

/-- One iteration of the sampling loop (core.py lines 130-138): a successful
draw evaluates `nc_var_a.values[rand_index]` and `nc_var_b.values[rand_index]`
(lines 249-250) — each `.values` access materializes that variable's entire
array, i.e. reads all of its elements, before the single index is applied —
prints one marker, and bumps `num_mismatches` on a mismatch; a failed draw
raises during index construction (line 245), which aborts the loop before
either `.values` access, reading nothing. -/
def sampleStep (a b : Variable) (rdraw : ℕ → ℕ) (st : RunState) : RunState :=
  if st.aborted then st
  else
    match matchRandomValue a b rdraw defaultThresh with
    | none => { st with aborted := true }
    | some o =>
      { st with
        markers := st.markers ++ [markerOf o]
        numMismatches := st.numMismatches + mismatchInc o
        readsA := st.readsA + numElements a
        readsB := st.readsB + numElements b }

/-- `compare_multiple_random_values` (core.py lines 123-144): run
`_match_random_value` for `num_comparisons` draws (default 100); `r i` is the
entropy source used by draw `i`. -/
def compareMultipleRandomValues (a b : Variable) (r : ℕ → ℕ → ℕ) (n : ℕ) : RunState :=
  (List.range n).foldl (fun st i => sampleStep a b (r i) st) initRunState

/-- The summary printed after the loop (core.py lines 140-143). -/
def runSummary (st : RunState) (n : ℕ) : String :=
  if st.numMismatches > 0 then
    " " ++ toString st.numMismatches ++ " mismatches, out of " ++ toString n ++ " samples."
  else
    " No mismatches."

/-! ### The comparison orchestrator, `run_through_comparisons` -/

/-- Which groups and variables exist in each of the two files; this is the
part of the two datasets that decides the orchestrator's lookups.
`groupInA g` holds when file A has a group named `g`; `varInA g v` holds when
that group of file A has a variable named `v` (and likewise for file B). -/
structure Env where
  groupInA : String → Bool
  groupInB : String → Bool
  varInA : String → String → Bool
  varInB : String → String → Bool

/-- The printed stages and reports of `run_through_comparisons`, in order of
appearance in the source. -/
inductive Event where
  | rootDims : Event
  | groupsDiff : Event
  | groupVarsHeader (g : String) : Event
  | openGroupError (g : String) : Event
  | varsListed (g : String) : Event
  | skipNoVar : Event
  | skipNoGroup : Event
  | sampleValuesHeader (v : String) : Event
  | samplesPrinted (v : String) : Event
  | samplingHeader (v : String) : Event
  | samplingRun (v g : String) : Event
  | lookupErrorReport (v g : String) : Event
  | allVariables : Event
deriving DecidableEq, Repr

/-- `run_through_comparisons` (core.py lines 63-121), as the trace of events
it prints and runs, paired with an aborted flag that records an uncaught
exception.  Faithful control flow: Python's truthiness of the optional names
(`None` and the empty string are falsy); `_print_vars` (lines 272-280) raises
`OSError` when the group cannot be opened, which is re-raised and aborts the
run; inside the `try` block (lines 99-109), a missing variable raises
`KeyError` from the dataset lookup (file A first, then file B), which is
caught at lines 110-114 and reported with the variable and group names, after
which the run continues; the all-variables comparison (lines 120-121) runs
after the conditional block.  -/
def runThroughComparisons (env : Env) (group? var? : Option String) :
    List Event × Bool :=
  let pre := [Event.rootDims, Event.groupsDiff]
  let g := group?.getD ""
  if g.isEmpty then
    (pre ++ [Event.skipNoGroup, Event.allVariables], false)
  else
    let pre := pre ++ [Event.groupVarsHeader g]
    if env.groupInA g = false then
      (pre ++ [Event.openGroupError g], true)
    else if env.groupInB g = false then
      (pre ++ [Event.openGroupError g], true)
    else
      let pre := pre ++ [Event.varsListed g]
      let v := var?.getD ""
      if v.isEmpty then
        (pre ++ [Event.skipNoVar, Event.allVariables], false)
      else
        let pre := pre ++ [Event.sampleValuesHeader v]
        if env.varInA g v = false then
          (pre ++ [Event.lookupErrorReport v g, Event.allVariables], false)
        else if env.varInB g v = false then
          (pre ++ [Event.samplesPrinted v, Event.lookupErrorReport v g,
                   Event.allVariables], false)
        else
          (pre ++ [Event.samplesPrinted v, Event.samplesPrinted v,
                   Event.samplingHeader v, Event.samplingRun v g,
                   Event.allVariables], false)

/-! ### The entry point, `compare`, and its colour handling -/

/-- The shared `colorama` styling namespaces `Fore` and `Style`: each maps an
attribute name to its escape-code string. -/
structure ColorState where
  fore : String → String
  style : String → String

/-- The colour handling of `compare` (core.py lines 51-57): with `no_color`,
every attribute of `Fore` and of `Style` is overwritten with the empty string;
otherwise `colorama.init(autoreset=True)` is called, which wraps the output
stream but leaves the code attributes unchanged. -/
def applyColorSetting (noColor : Bool) (s : ColorState) : ColorState :=
  if noColor then { fore := fun _ => "", style := fun _ => "" } else s

/-- The entry point `compare` (core.py lines 18-61): validate the two paths,
print them, apply the colour setting once, run the comparisons (which only
read the styling namespaces), and print a final message.  The result is the
orchestrator's trace together with the styling state left in effect for the
rest of the process. -/
def compare (env : Env) (group? var? : Option String) (noColor : Bool)
    (s : ColorState) : (List Event × Bool) × ColorState :=
  let s1 := applyColorSetting noColor s
  (runThroughComparisons env group? var?, s1)

/-! ### The all-variables walk, `compare_two_nc_files`, and the aligner -/

/-- Modelled from the spec: the sequence aligner of §4.1 (the repository's
`common_elements` in `ncompare/sequence_operations.py`, a file absent from
`src/`).  Helper: split `bs` at the first occurrence of `x`, returning the
entries before it and the entries after it, or `none` when `x` does not
occur. -/
def splitAtFirstOcc (x : String) : List String → Option (List String × List String)
  | [] => none
  | b :: bs =>
    if b = x then some ([], bs)
    else
      match splitAtFirstOcc x bs with
      | none => none
      | some (sk, rest) => some (b :: sk, rest)

/-- Modelled from the spec: `align(seq_a, seq_b)` of §4.1 (the repository's
`common_elements`, absent from `src/`).  Walk `seq_a` in order keeping a
pointer into `seq_b`; a name found ahead in `seq_b` first emits the skipped
`seq_b` entries as right-only rows and then a matched row; a name not found
ahead is a left-only row; leftover `seq_b` entries end as right-only rows.
A gap is the empty string, as in the code's `if g_a:` tests. -/
def align : List String → List String → List (String × String)
  | [], bs => bs.map (fun b => ("", b))
  | a :: as_, bs =>
    match splitAtFirstOcc a bs with
    | some (skipped, rest) => skipped.map (fun b => ("", b)) ++ [(a, a)] ++ align as_ rest
    | none => (a, "") :: align as_ bs

/-- The structural content of one NetCDF file that the variable-listing paths
read: the root-group variable names in their native (dictionary) order, and
the child groups, each with its variable names in native order. -/
structure Dataset where
  rootVars : List String
  groups : List (String × List String)

/-- Variables of the named child group, in native order (the code's
`nc.groups[g].variables`). -/
def lookupGroupVars (d : Dataset) (g : String) : List String :=
  ((d.groups.find? (fun p => p.1 == g)).map Prod.snd).getD []

/-- Python's string comparison: lexicographic by code point on the character
sequences. -/
def lexLe : List Char → List Char → Bool
  | [], _ => true
  | _ :: _, [] => false
  | a :: as_, b :: bs => if a < b then true else if a = b then lexLe as_ bs else false

/-- Python's `<=` on two strings. -/
def strLe (x y : String) : Bool :=
  lexLe x.data y.data

/-- The string order used by the listing paths. -/
def strOrder (x y : String) : Prop :=
  strLe x y = true

instance : DecidableRel strOrder := fun x y => instDecidableEqBool (strLe x y) true

/-- Python's `sorted` on a list of names: a stable sort for the string order,
modelled by insertion sort. -/
def pySorted (xs : List String) : List String :=
  List.insertionSort strOrder xs

/-- The sequences of variable names that `compare_two_nc_files` (core.py lines
146-170) passes to the aligner (`common_elements`): first the root-group
variables of each file, passed in native order (line 155), then, for each
aligned pair of group names, the group's variables sorted (lines 161-169; an
absent group contributes `""`, i.e. the empty listing). -/
def variableListingCalls (a b : Dataset) : List (List String × List String) :=
  (a.rootVars, b.rootVars) ::
    (align (a.groups.map Prod.fst) (b.groups.map Prod.fst)).map
      (fun p =>
        ((if p.1.isEmpty then [] else pySorted (lookupGroupVars a p.1)),
         (if p.2.isEmpty then [] else pySorted (lookupGroupVars b p.2))))

/-- The variable listing produced by `_print_vars` (core.py lines 272-280) for
a group whose variables are `vars`, in native order: the code sorts it before
printing and before handing it to the list diff. -/
def printVarsListing (vars : List String) : List String :=
  pySorted vars

/-! ### Concrete inputs used by witnesses and counterexamples -/

/-- A one-element variable whose value is the number `0`. -/
def constNumVar : Variable := ⟨[1], fun _ => Val.num 0⟩

/-- A one-element variable whose value is NaN. -/
def constNanVar : Variable := ⟨[1], fun _ => Val.nan⟩

/-- A trivial entropy source. -/
def zeroEntropy : ℕ → ℕ → ℕ := fun _ _ => 0

/-- A two-by-three variable (six elements), all zero. -/
def gridVar : Variable := ⟨[2, 3], fun _ => Val.num 0⟩

/-- A pair of files that contain no groups at all. -/
def envMissingGroup : Env := ⟨fun _ => false, fun _ => false, fun _ _ => false, fun _ _ => false⟩

/-- A pair of files in which every group exists but no variable does. -/
def envMissingVar : Env := ⟨fun _ => true, fun _ => true, fun _ _ => false, fun _ _ => false⟩

/-- A file whose root group lists its two variables out of order. -/
def dsPairUnsorted : Dataset := ⟨["b", "a"], []⟩

/-- A file with one child group listing its two variables out of order. -/
def dsWithGroup : Dataset := ⟨[], [("g", ["b", "a"])]⟩

/-!
## Theorems

General lemmas about the embedded definitions, then one theorem per claim
(with a witness or counterexample where required).
-/

/-- The function qabs agrees with the absolute value on `ℚ`. -/
theorem qabs_eq_abs (q : ℚ) : qabs q = |q| := by
  unfold qabs
  rcases lt_or_le q 0 with h | h
  · simp [abs_of_neg h, h]
  · simp [not_lt.mpr h, abs_of_nonneg h]

/-- Evaluation of a sampling step on two non-NaN values. -/
theorem matchValues_num_num (a b t : ℚ) :
    matchValues (Val.num a) (Val.num b) t =
      if qabs (b - a) > t then SampleOutcome.Mismatch (b - a) else SampleOutcome.Match := by
  simp [matchValues, Val.isnan, Val.toQ]

/-- C1: For every pair of sampled scalar values v1 (from var_a) and v2 (from
var_b) where neither is NaN, a single sampling step returns Mismatch carrying
the difference v2 - v1 when |v2 - v1| > tolerance, and returns Match
otherwise; the default tolerance is 1e-6. -/
theorem sampling_step_mismatch_iff_exceeds_tolerance (v1 v2 t : ℚ) :
    matchValues (Val.num v1) (Val.num v2) t =
      (if |v2 - v1| > t then SampleOutcome.Mismatch (v2 - v1) else SampleOutcome.Match)
    ∧ defaultThresh = 1 / 1000000 := by
  refine ⟨?_, rfl⟩
  rw [matchValues_num_num, qabs_eq_abs]

/-- C2: For every sampling step, if either of the two sampled scalar values is
NaN (including the case where exactly one side is NaN), the outcome is
BothMissing (the None result), not Match and not Mismatch. -/
theorem sampling_step_nan_yields_both_missing (v1 v2 : Val) (t : ℚ)
    (h : v1.isnan = true ∨ v2.isnan = true) :
    matchValues v1 v2 t = SampleOutcome.BothMissing := by
  unfold matchValues
  rcases h with h | h <;> simp [h]

/-- Witness for C2, at a pair where exactly one side is NaN (both
orientations). -/
theorem sampling_step_nan_yields_both_missing_witness :
    matchValues Val.nan (Val.num 5) defaultThresh = SampleOutcome.BothMissing ∧
    matchValues (Val.num 5) Val.nan defaultThresh = SampleOutcome.BothMissing :=
  ⟨sampling_step_nan_yields_both_missing Val.nan (Val.num 5) defaultThresh (Or.inl rfl),
   sampling_step_nan_yields_both_missing (Val.num 5) Val.nan defaultThresh (Or.inr rfl)⟩

/-- With every extent positive, the index loop succeeds from any starting
dimension and every component is within its extent. -/
theorem randIndexAux_all_pos (r : ℕ → ℕ) :
    ∀ (shape : List ℕ) (i : ℕ), (∀ d ∈ shape, 1 ≤ d) →
      ∃ idx, randIndexAux r i shape = some idx ∧
        List.Forall₂ (fun (x : ℤ) (d : ℕ) => 0 ≤ x ∧ x < (d : ℤ)) idx shape := by
  intro shape
  induction shape with
  | nil => exact fun i _ => ⟨[], rfl, List.Forall₂.nil⟩
  | cons d ds ih =>
    intro i h
    have hd : 1 ≤ d := h d (List.mem_cons_self d ds)
    obtain ⟨idx, hidx, hfa⟩ := ih (i + 1) (fun x hx => h x (List.mem_cons_of_mem d hx))
    have hle : (0 : ℤ) ≤ (d : ℤ) - 1 := by omega
    refine ⟨(0 + (r i : ℤ) % ((d : ℤ) - 1 - 0 + 1)) :: idx, ?_, ?_⟩
    · simp only [randIndexAux, randint, if_pos hle, hidx]
    · have hmodpos : (0 : ℤ) < (d : ℤ) - 1 - 0 + 1 := by omega
      have h1 := Int.emod_nonneg (r i : ℤ) (by omega : ((d : ℤ) - 1 - 0 + 1) ≠ 0)
      have h2 := Int.emod_lt_of_pos (r i : ℤ) hmodpos
      exact List.Forall₂.cons ⟨by omega, by omega⟩ hfa

/-- With a zero extent anywhere in the shape, the index loop fails from any
starting dimension. -/
theorem randIndexAux_zero_extent (r : ℕ → ℕ) :
    ∀ (shape : List ℕ) (i : ℕ), 0 ∈ shape → randIndexAux r i shape = none := by
  intro shape
  induction shape with
  | nil => intro i h; simp at h
  | cons d ds ih =>
    intro i h
    rcases List.mem_cons.mp h with h0 | h0
    · have hd : d = 0 := h0.symm
      subst hd
      simp [randIndexAux, randint]
    · simp only [randIndexAux]
      cases hr : randint 0 ((d : ℤ) - 1) (r i) with
      | none => rfl
      | some x => rw [ih (i + 1) h0]

/-- C9: Under the precondition that every extent of var_a's shape is at least
1, each component of the randomly drawn index lies in [0, extent) for the
corresponding dimension, so indexing both variables at that index is in
bounds; if any extent is 0, the index draw itself fails before any value is
read (the sampling step yields no outcome and reads nothing). -/
theorem random_index_bounds (r : ℕ → ℕ) (shape : List ℕ) :
    ((∀ d ∈ shape, 1 ≤ d) →
      ∃ idx, randIndex r shape = some idx ∧
        List.Forall₂ (fun (x : ℤ) (d : ℕ) => 0 ≤ x ∧ x < (d : ℤ)) idx shape)
    ∧ (0 ∈ shape →
        randIndex r shape = none ∧
        ∀ (a b : Variable) (t : ℚ) (st : RunState), a.shape = shape →
          st.aborted = false →
          matchRandomValue a b r t = none ∧
          sampleStep a b r st = { st with aborted := true }) := by
  constructor
  · exact fun h => randIndexAux_all_pos r shape 0 h
  · intro h0
    have hz : randIndex r shape = none := randIndexAux_zero_extent r shape 0 h0
    refine ⟨hz, ?_⟩
    intro a b t st ha hab
    have hmv : matchRandomValue a b r t = none := by
      simp [matchRandomValue, ha, hz]
    refine ⟨hmv, ?_⟩
    have hmv' : matchRandomValue a b r defaultThresh = none := by
      simp [matchRandomValue, ha, hz]
    simp [sampleStep, hab, hmv']

/-- Witness for C9: a positive shape with in-bound components, and a shape
with a zero extent on which the draw fails. -/
theorem random_index_bounds_witness :
    (∃ idx, randIndex (fun _ => 5) [2, 3] = some idx ∧
      List.Forall₂ (fun (x : ℤ) (d : ℕ) => 0 ≤ x ∧ x < (d : ℤ)) idx [2, 3])
    ∧ randIndex (fun _ => 5) [0] = none :=
  ⟨(random_index_bounds (fun _ => 5) [2, 3]).1 (by decide),
   ((random_index_bounds (fun _ => 5) [0]).2 (by decide)).1⟩

/-- C3 (code bug): the code violates the claimed read bound.  Each successful
draw evaluates `.values` on both variables (core.py lines 249-250), which
materializes the variable's entire array; already a single-draw run over a
two-by-three variable reads all six of its scalar elements from each side,
exceeding the claimed bound of n = 1 scalar elements per variable — the
number read grows with the array size, contrary to the claim. -/
theorem one_draw_reads_whole_array :
    numElements gridVar = 6 ∧
    (compareMultipleRandomValues gridVar gridVar zeroEntropy 1).readsA = 6 ∧
    (compareMultipleRandomValues gridVar gridVar zeroEntropy 1).readsB = 6 ∧
    ¬ ((compareMultipleRandomValues gridVar gridVar zeroEntropy 1).readsA ≤ 1) := by
  have h : compareMultipleRandomValues gridVar gridVar zeroEntropy 1 =
      ⟨0, ['.'], 6, 6, false⟩ := by
    norm_num [compareMultipleRandomValues, List.range_succ, sampleStep, matchRandomValue,
      randIndex, randIndexAux, randint, initRunState, markerOf, mismatchInc, matchValues,
      Val.isnan, Val.toQ, qabs, defaultThresh, gridVar, zeroEntropy, numElements]
  rw [h]
  exact ⟨rfl, rfl, rfl, by decide⟩

/-- Appending a draw's marker adds exactly the draw's mismatch increment to
the count of mismatch markers. -/
theorem count_x_append_marker (ms : List Char) (o : SampleOutcome) :
    (ms ++ [markerOf o]).count 'x' = ms.count 'x' + mismatchInc o := by
  cases o <;>
    simp [markerOf, mismatchInc, List.count_append, List.count_cons, List.count_nil]

/-- Every marker is one of the three progress characters. -/
theorem markerOf_cases (o : SampleOutcome) :
    markerOf o = '.' ∨ markerOf o = 'n' ∨ markerOf o = 'x' := by
  cases o <;> simp [markerOf]

/-- A loop iteration on a live state with an all-positive shape performs one
full draw: it appends one marker, adds the draw's mismatch increment, and
materializes each variable once. -/
theorem sampleStep_success (a b : Variable) (rd : ℕ → ℕ) (st : RunState)
    (hsh : ∀ d ∈ a.shape, 1 ≤ d) (hab : st.aborted = false) :
    ∃ o, sampleStep a b rd st =
      { st with
        markers := st.markers ++ [markerOf o]
        numMismatches := st.numMismatches + mismatchInc o
        readsA := st.readsA + numElements a
        readsB := st.readsB + numElements b } := by
  obtain ⟨idx, hidx, -⟩ := randIndexAux_all_pos rd a.shape 0 hsh
  refine ⟨matchValues (a.data idx) (b.data idx) defaultThresh, ?_⟩
  have hmv : matchRandomValue a b rd defaultThresh =
      some (matchValues (a.data idx) (b.data idx) defaultThresh) := by
    simp [matchRandomValue, randIndex, hidx]
  simp [sampleStep, hab, hmv]

/-- Loop invariant for a run over an all-positive shape: the run never
aborts, emits one marker per iteration, keeps `numMismatches` equal to the
number of mismatch markers, and emits only the three progress characters. -/
theorem foldl_run_invariant (a b : Variable) (r : ℕ → ℕ → ℕ)
    (hsh : ∀ d ∈ a.shape, 1 ≤ d) :
    ∀ (l : List ℕ) (st : RunState), st.aborted = false →
      st.numMismatches = st.markers.count 'x' →
      (∀ c ∈ st.markers, c = '.' ∨ c = 'n' ∨ c = 'x') →
      (l.foldl (fun st i => sampleStep a b (r i) st) st).aborted = false ∧
      (l.foldl (fun st i => sampleStep a b (r i) st) st).markers.length =
        st.markers.length + l.length ∧
      (l.foldl (fun st i => sampleStep a b (r i) st) st).numMismatches =
        (l.foldl (fun st i => sampleStep a b (r i) st) st).markers.count 'x' ∧
      (∀ c ∈ (l.foldl (fun st i => sampleStep a b (r i) st) st).markers,
        c = '.' ∨ c = 'n' ∨ c = 'x') := by
  intro l
  induction l with
  | nil => intro st hab hcount hmem; exact ⟨hab, by simp, hcount, hmem⟩
  | cons i l ih =>
    intro st hab hcount hmem
    obtain ⟨o, ho⟩ := sampleStep_success a b (r i) st hsh hab
    have hcount' : (sampleStep a b (r i) st).numMismatches =
        (sampleStep a b (r i) st).markers.count 'x' := by
      rw [ho]
      show st.numMismatches + mismatchInc o = (st.markers ++ [markerOf o]).count 'x'
      rw [count_x_append_marker, hcount]
    have hmem' : ∀ c ∈ (sampleStep a b (r i) st).markers,
        c = '.' ∨ c = 'n' ∨ c = 'x' := by
      rw [ho]
      intro c hc
      rcases List.mem_append.mp hc with hc | hc
      · exact hmem c hc
      · rcases List.mem_singleton.mp hc with rfl
        exact markerOf_cases o
    have hab' : (sampleStep a b (r i) st).aborted = false := by rw [ho]; exact hab
    have hlen : (sampleStep a b (r i) st).markers.length = st.markers.length + 1 := by
      rw [ho]; simp
    have H := ih (sampleStep a b (r i) st) hab' hcount' hmem'
    simp only [List.foldl_cons, List.length_cons]
    exact ⟨H.1, by rw [H.2.1, hlen]; omega, H.2.2.1, H.2.2.2⟩

/-- C5 amended: For every n and every pair of variables whose shape extents
are all positive, the repeated sampler performs exactly n draws, emits
exactly one progress marker per draw (each being one of the characters
emitted for Match, BothMissing, and Mismatch), and aggregates only the count
of Mismatch outcomes, which equals the number of mismatch markers. -/
theorem sampler_n_draws_one_marker_each_and_mismatch_count
    (a b : Variable) (r : ℕ → ℕ → ℕ) (n : ℕ) (hsh : ∀ d ∈ a.shape, 1 ≤ d) :
    (compareMultipleRandomValues a b r n).aborted = false ∧
    (compareMultipleRandomValues a b r n).markers.length = n ∧
    (compareMultipleRandomValues a b r n).numMismatches =
      (compareMultipleRandomValues a b r n).markers.count 'x' ∧
    (∀ c ∈ (compareMultipleRandomValues a b r n).markers,
      c = '.' ∨ c = 'n' ∨ c = 'x') := by
  have h := foldl_run_invariant a b r hsh (List.range n) initRunState rfl rfl
    (by simp [initRunState])
  simpa [compareMultipleRandomValues, initRunState] using h

/-- Witness for the amended C5 theorem at a concrete three-draw run. -/
theorem sampler_n_draws_one_marker_each_and_mismatch_count_witness :
    (∀ d ∈ constNumVar.shape, 1 ≤ d) ∧
    ((compareMultipleRandomValues constNumVar constNumVar zeroEntropy 3).aborted = false ∧
     (compareMultipleRandomValues constNumVar constNumVar zeroEntropy 3).markers.length = 3 ∧
     (compareMultipleRandomValues constNumVar constNumVar zeroEntropy 3).numMismatches =
       (compareMultipleRandomValues constNumVar constNumVar zeroEntropy 3).markers.count 'x' ∧
     (∀ c ∈ (compareMultipleRandomValues constNumVar constNumVar zeroEntropy 3).markers,
       c = '.' ∨ c = 'n' ∨ c = 'x')) :=
  ⟨by decide,
   sampler_n_draws_one_marker_each_and_mismatch_count constNumVar constNumVar
     zeroEntropy 3 (by decide)⟩

/-- Evaluation of a two-draw run on the constant numeric variable: two Match
outcomes. -/
theorem run_constNum_eval :
    compareMultipleRandomValues constNumVar constNumVar zeroEntropy 2 =
      ⟨0, ['.', '.'], 2, 2, false⟩ := by
  norm_num [compareMultipleRandomValues, List.range_succ, sampleStep, matchRandomValue,
    randIndex, randIndexAux, randint, initRunState, markerOf, mismatchInc, matchValues,
    Val.isnan, Val.toQ, qabs, defaultThresh, constNumVar, zeroEntropy, numElements]

/-- Evaluation of a two-draw run on the constant NaN variable: two
BothMissing outcomes. -/
theorem run_constNan_eval :
    compareMultipleRandomValues constNanVar constNanVar zeroEntropy 2 =
      ⟨0, ['n', 'n'], 2, 2, false⟩ := by
  norm_num [compareMultipleRandomValues, List.range_succ, sampleStep, matchRandomValue,
    randIndex, randIndexAux, randint, initRunState, markerOf, mismatchInc, matchValues,
    Val.isnan, constNanVar, zeroEntropy, numElements]

/-- C5 counterexample: the sampler does not aggregate a count for each
outcome kind.  A two-draw run with two Match outcomes and a two-draw run with
two BothMissing outcomes leave identical aggregate state (the loop's only
counter, `num_mismatches`, and the printed summary are equal), although their
Match counts differ — those kinds are distinguishable only in the per-draw
marker stream. -/
theorem sampler_aggregate_blind_to_match_and_missing :
    (compareMultipleRandomValues constNumVar constNumVar zeroEntropy 2).numMismatches =
      (compareMultipleRandomValues constNanVar constNanVar zeroEntropy 2).numMismatches ∧
    runSummary (compareMultipleRandomValues constNumVar constNumVar zeroEntropy 2) 2 =
      runSummary (compareMultipleRandomValues constNanVar constNanVar zeroEntropy 2) 2 ∧
    (compareMultipleRandomValues constNumVar constNumVar zeroEntropy 2).markers =
      ['.', '.'] ∧
    (compareMultipleRandomValues constNanVar constNanVar zeroEntropy 2).markers =
      ['n', 'n'] ∧
    (compareMultipleRandomValues constNumVar constNumVar zeroEntropy 2).markers.count '.' ≠
      (compareMultipleRandomValues constNanVar constNanVar zeroEntropy 2).markers.count '.' := by
  rw [run_constNum_eval, run_constNan_eval]
  exact ⟨rfl, rfl, rfl, rfl, by decide⟩

/-- Comparing any value against itself never yields a mismatch for a
nonnegative tolerance. -/
theorem matchValues_self_no_mismatch (x : Val) (t : ℚ) (ht : 0 ≤ t) :
    mismatchInc (matchValues x x t) = 0 := by
  cases x with
  | nan => simp [matchValues, Val.isnan, mismatchInc]
  | num q =>
    rw [matchValues_num_num]
    have h0 : qabs (q - q) = 0 := by simp [qabs]
    rw [h0, if_neg (not_lt.mpr ht)]
    rfl

/-- A loop iteration comparing a variable against itself never increases the
mismatch counter. -/
theorem sampleStep_self_no_new_mismatch (v : Variable) (rd : ℕ → ℕ) (st : RunState) :
    (sampleStep v v rd st).numMismatches = st.numMismatches := by
  unfold sampleStep
  by_cases hab : st.aborted
  · simp [hab]
  · simp only [hab, if_false, Bool.false_eq_true]
    cases hmv : matchRandomValue v v rd defaultThresh with
    | none => simp
    | some o =>
      have ho : mismatchInc o = 0 := by
        unfold matchRandomValue at hmv
        cases hr : randIndex rd v.shape with
        | none => rw [hr] at hmv; cases hmv
        | some idx =>
          rw [hr] at hmv
          rw [← Option.some.inj hmv]
          exact matchValues_self_no_mismatch _ _ (by norm_num [defaultThresh])
      simp [ho]

/-- C8: For tolerance 1e-6 and any variable compared against an identical
copy of itself (same shape and the same value at every index), a run of the
repeated sampler with any n >= 1 draws produces zero Mismatch outcomes. -/
theorem identical_variables_no_mismatch (v : Variable) (r : ℕ → ℕ → ℕ) (n : ℕ)
    (h : 1 ≤ n) :
    (compareMultipleRandomValues v v r n).numMismatches = 0 := by
  suffices H : ∀ (l : List ℕ) (st : RunState),
      (l.foldl (fun st i => sampleStep v v (r i) st) st).numMismatches =
        st.numMismatches by
    simpa [compareMultipleRandomValues, initRunState] using H (List.range n) initRunState
  intro l
  induction l with
  | nil => intro st; rfl
  | cons i l ih =>
    intro st
    simp only [List.foldl_cons]
    rw [ih, sampleStep_self_no_new_mismatch]

/-- Witness for C8 at a concrete two-draw run. -/
theorem identical_variables_no_mismatch_witness :
    1 ≤ 2 ∧
    (compareMultipleRandomValues constNumVar constNumVar zeroEntropy 2).numMismatches = 0 :=
  ⟨by decide, identical_variables_no_mismatch constNumVar zeroEntropy 2 (by decide)⟩

/-- C4 counterexample: when the named group does not exist, the lookup
failure is not caught — the `OSError` raised while opening the group for the
variable listing propagates, the run aborts, and the all-variables stage is
never reached. -/
theorem missing_group_aborts_run :
    runThroughComparisons envMissingGroup (some "g1") (some "v1") =
      ([Event.rootDims, Event.groupsDiff, Event.groupVarsHeader "g1",
        Event.openGroupError "g1"], true) ∧
    Event.allVariables ∉ (runThroughComparisons envMissingGroup (some "g1") (some "v1")).1 ∧
    (runThroughComparisons envMissingGroup (some "g1") (some "v1")).2 = true := by
  exact ⟨by decide, by decide, by decide⟩

/-- C4 amended: when the named group exists in both files but the named
variable does not exist in one of them, the `KeyError` is caught and reported
with the offending variable and group names, and execution still proceeds to
the all-variables comparison stage; when the named group itself is missing,
the run instead aborts with an uncaught `OSError`. -/
theorem missing_variable_caught_and_continues (env : Env) (g v : String)
    (hg : g.isEmpty = false) (hv : v.isEmpty = false)
    (ha : env.groupInA g = true) (hb : env.groupInB g = true)
    (hmiss : env.varInA g v = false ∨ env.varInB g v = false) :
    (runThroughComparisons env (some g) (some v)).2 = false ∧
    Event.lookupErrorReport v g ∈ (runThroughComparisons env (some g) (some v)).1 ∧
    Event.allVariables ∈ (runThroughComparisons env (some g) (some v)).1 := by
  unfold runThroughComparisons
  rcases hmiss with hm | hm
  · simp [hg, hv, ha, hb, hm]
  · cases hA : env.varInA g v with
    | false => simp [hg, hv, ha, hb, hA]
    | true => simp [hg, hv, ha, hb, hA, hm]

/-- Witness for the amended C4 theorem at a concrete environment in which the
group exists but the variable does not. -/
theorem missing_variable_caught_and_continues_witness :
    (runThroughComparisons envMissingVar (some "g1") (some "v1")).2 = false ∧
    Event.lookupErrorReport "v1" "g1" ∈
      (runThroughComparisons envMissingVar (some "g1") (some "v1")).1 ∧
    Event.allVariables ∈ (runThroughComparisons envMissingVar (some "g1") (some "v1")).1 :=
  missing_variable_caught_and_continues envMissingVar "g1" "v1" (by decide) (by decide)
    rfl rfl (Or.inl rfl)

/-- C7: For every configuration, the per-group variable listing stage runs
only if a comparison group name was supplied (truthy), and the sample-value
inspection and random-sampling stage runs only if a comparison variable name
was also supplied; when the group name is absent the orchestrator emits the
skip message and goes directly to the all-variables stage, and when only the
variable name is absent it lists the group variables, emits the skip message,
and goes directly to the all-variables stage. -/
theorem orchestrator_stage_gating (env : Env) (group? var? : Option String) :
    ((group?.getD "").isEmpty = true →
      runThroughComparisons env group? var? =
        ([Event.rootDims, Event.groupsDiff, Event.skipNoGroup,
          Event.allVariables], false)) ∧
    (∀ g : String, group? = some g → g.isEmpty = false →
      env.groupInA g = true → env.groupInB g = true → (var?.getD "").isEmpty = true →
      runThroughComparisons env group? var? =
        ([Event.rootDims, Event.groupsDiff, Event.groupVarsHeader g,
          Event.varsListed g, Event.skipNoVar, Event.allVariables], false)) ∧
    (∀ g' : String,
      Event.groupVarsHeader g' ∈ (runThroughComparisons env group? var?).1 →
      (group?.getD "").isEmpty = false) ∧
    (∀ v' : String,
      (Event.sampleValuesHeader v' ∈ (runThroughComparisons env group? var?).1 ∨
       Event.samplingHeader v' ∈ (runThroughComparisons env group? var?).1 ∨
       (∃ g', Event.samplingRun v' g' ∈ (runThroughComparisons env group? var?).1)) →
      (group?.getD "").isEmpty = false ∧ (var?.getD "").isEmpty = false) := by
  cases hg : (group?.getD "").isEmpty with
  | true =>
    have hrun : runThroughComparisons env group? var? =
        ([Event.rootDims, Event.groupsDiff, Event.skipNoGroup,
          Event.allVariables], false) := by
      simp [runThroughComparisons, hg]
    refine ⟨fun _ => hrun, ?_, ?_, ?_⟩
    · intro g hsome hne _ _ _
      subst hsome
      simp only [Option.getD_some] at hg
      simp [hg] at hne
    · intro g' hmem
      rw [hrun] at hmem
      simp at hmem
    · intro v' hmem
      rcases hmem with h | h | ⟨g', h⟩ <;> rw [hrun] at h <;> simp at h
  | false =>
    cases hA : env.groupInA (group?.getD "") with
    | false =>
      have hrun : runThroughComparisons env group? var? =
          ([Event.rootDims, Event.groupsDiff,
            Event.groupVarsHeader (group?.getD ""),
            Event.openGroupError (group?.getD "")], true) := by
        simp [runThroughComparisons, hg, hA]
      refine ⟨?_, ?_, fun _ _ => rfl, ?_⟩
      · intro h; simp [hg] at h
      · intro g hsome _ ha _ _
        subst hsome
        simp only [Option.getD_some] at hA
        simp [ha] at hA
      · intro v' hmem
        rcases hmem with h | h | ⟨g', h⟩ <;> rw [hrun] at h <;> simp at h
    | true =>
      cases hB : env.groupInB (group?.getD "") with
      | false =>
        have hrun : runThroughComparisons env group? var? =
            ([Event.rootDims, Event.groupsDiff,
              Event.groupVarsHeader (group?.getD ""),
              Event.openGroupError (group?.getD "")], true) := by
          simp [runThroughComparisons, hg, hA, hB]
        refine ⟨?_, ?_, fun _ _ => rfl, ?_⟩
        · intro h; simp [hg] at h
        · intro g hsome _ _ hb _
          subst hsome
          simp only [Option.getD_some] at hB
          simp [hb] at hB
        · intro v' hmem
          rcases hmem with h | h | ⟨g', h⟩ <;> rw [hrun] at h <;> simp at h
      | true =>
        cases hv : (var?.getD "").isEmpty with
        | true =>
          have hrun : runThroughComparisons env group? var? =
              ([Event.rootDims, Event.groupsDiff,
                Event.groupVarsHeader (group?.getD ""),
                Event.varsListed (group?.getD ""),
                Event.skipNoVar, Event.allVariables], false) := by
            simp [runThroughComparisons, hg, hA, hB, hv]
          refine ⟨?_, ?_, fun _ _ => rfl, ?_⟩
          · intro h; simp [hg] at h
          · intro g hsome _ _ _ _
            subst hsome
            simp only [Option.getD_some] at hrun
            exact hrun
          · intro v' hmem
            rcases hmem with h | h | ⟨g', h⟩ <;> rw [hrun] at h <;> simp at h
        | false =>
          refine ⟨?_, ?_, fun _ _ => rfl, fun _ _ => ⟨rfl, rfl⟩⟩
          · intro h; simp [hg] at h
          · intro g hsome _ _ _ hv'
            simp [hv] at hv'

/-- Witness for C7 at concrete configurations: an absent group name, and a
supplied existing group with an absent variable name. -/
theorem orchestrator_stage_gating_witness :
    runThroughComparisons envMissingVar none (some "v1") =
      ([Event.rootDims, Event.groupsDiff, Event.skipNoGroup,
        Event.allVariables], false) ∧
    runThroughComparisons envMissingVar (some "g1") none =
      ([Event.rootDims, Event.groupsDiff, Event.groupVarsHeader "g1",
        Event.varsListed "g1", Event.skipNoVar, Event.allVariables], false) :=
  ⟨(orchestrator_stage_gating envMissingVar none (some "v1")).1 (by decide),
   (orchestrator_stage_gating envMissingVar (some "g1") none).2.1 "g1" rfl (by decide)
     rfl rfl (by decide)⟩

/-- Python string comparison is total. -/
theorem lexLe_total (a : List Char) : ∀ b, lexLe a b = true ∨ lexLe b a = true := by
  induction a with
  | nil => intro b; left; rfl
  | cons x xs ih =>
    intro b
    cases b with
    | nil => right; rfl
    | cons y ys =>
      rcases lt_trichotomy x y with h | h | h
      · left; simp [lexLe, h]
      · subst h
        rcases ih ys with h' | h'
        · left; simp [lexLe, lt_irrefl, h']
        · right; simp [lexLe, lt_irrefl, h']
      · right; simp [lexLe, h]

/-- Python string comparison is transitive. -/
theorem lexLe_trans (a : List Char) :
    ∀ b c, lexLe a b = true → lexLe b c = true → lexLe a c = true := by
  induction a with
  | nil => intro b c _ _; rfl
  | cons x xs ih =>
    intro b c hab hbc
    cases b with
    | nil => simp [lexLe] at hab
    | cons y ys =>
      cases c with
      | nil => simp [lexLe] at hbc
      | cons z zs =>
        simp only [lexLe] at hab hbc ⊢
        by_cases hxy : x < y
        · by_cases hyz : y < z
          · simp [lt_trans hxy hyz]
          · by_cases hyz' : y = z
            · subst hyz'; simp [hxy]
            · simp [hyz, hyz'] at hbc
        · by_cases hxy' : x = y
          · subst hxy'
            simp only [lt_irrefl, if_false, if_pos rfl, if_neg hxy] at hab
            by_cases hxz : x < z
            · simp [hxz]
            · by_cases hxz' : x = z
              · subst hxz'
                simp only [lt_irrefl, if_false, if_pos rfl] at hbc ⊢
                exact ih ys zs hab hbc
              · simp [hxz, hxz'] at hbc
          · simp [hxy, hxy'] at hab

/-- The result of pySorted is sorted for the string order. -/
theorem pySorted_sorted (xs : List String) : List.Sorted strOrder (pySorted xs) := by
  haveI : IsTotal String strOrder := ⟨fun x y => lexLe_total x.data y.data⟩
  haveI : IsTrans String strOrder := ⟨fun x y z => lexLe_trans x.data y.data z.data⟩
  exact List.sorted_insertionSort strOrder xs

/-- C6 counterexample: the claim fails on the root-group path — the
all-variables walk passes the root-group variable names to the aligner in the
file's native order, which can be unsorted. -/
theorem root_variables_passed_unsorted :
    (variableListingCalls dsPairUnsorted dsPairUnsorted).head? =
      some (["b", "a"], ["b", "a"]) ∧
    ¬ List.Sorted strOrder ["b", "a"] :=
  ⟨rfl, by decide⟩

/-- C6 amended: the nested-group variable listings of the all-variables walk
are sorted on both sides before being passed to the aligner, and the
selected-group listing of the reporter is sorted before being diffed; the
root-group variable listing, however, is passed to the aligner in the file's
native order. -/
theorem group_variable_listings_sorted (a b : Dataset) (vars : List String)
    (p : List String × List String)
    (hp : p ∈ (variableListingCalls a b).tail) :
    List.Sorted strOrder p.1 ∧ List.Sorted strOrder p.2 ∧
    List.Sorted strOrder (printVarsListing vars) := by
  have hp' : p ∈ (align (a.groups.map Prod.fst) (b.groups.map Prod.fst)).map
      (fun q => ((if q.1.isEmpty then [] else pySorted (lookupGroupVars a q.1)),
                 (if q.2.isEmpty then [] else pySorted (lookupGroupVars b q.2)))) := by
    simpa [variableListingCalls] using hp
  obtain ⟨q, hq, rfl⟩ := List.mem_map.mp hp'
  refine ⟨?_, ?_, pySorted_sorted vars⟩
  · dsimp only
    by_cases h : q.1.isEmpty
    · simp [h]
    · simp [h, pySorted_sorted]
  · dsimp only
    by_cases h : q.2.isEmpty
    · simp [h]
    · simp [h, pySorted_sorted]

/-- Witness for the amended C6 theorem at a concrete pair of files with one
nested group listing its variables out of order. -/
theorem group_variable_listings_sorted_witness :
    List.Sorted strOrder ((["a", "b"], ["a", "b"]) : List String × List String).1 ∧
    List.Sorted strOrder ((["a", "b"], ["a", "b"]) : List String × List String).2 ∧
    List.Sorted strOrder (printVarsListing ["b", "a"]) :=
  group_variable_listings_sorted dsWithGroup dsWithGroup ["b", "a"]
    (["a", "b"], ["a", "b"]) (by decide)

/-- C10: When compare is called with no_color true, it disables colour by
overwriting every attribute of the shared Fore and Style styling namespaces
with the empty string — the styling state left in effect for the whole run
maps every attribute to the empty string and is never restored; when
no_color is false, those namespaces are left unmodified. -/
theorem no_color_blanks_styling_for_whole_run (env : Env) (group? var? : Option String)
    (s : ColorState) :
    (∀ k, (compare env group? var? true s).2.fore k = "" ∧
          (compare env group? var? true s).2.style k = "") ∧
    (compare env group? var? false s).2 = s :=
  ⟨fun _ => ⟨rfl, rfl⟩, rfl⟩

end Ncompare
